import Mathlib

/-!
Shallow embedding of `src/mem_sim.py` (class `MemorySimulator`), a virtual-memory
address-translation simulator: a TLB and a page table, both Python
`collections.OrderedDict`s, backed by a fixed list of frames, with LRU or
Second-Chance replacement, plus hit/miss/fault counters.

Python `OrderedDict`s are modelled as association lists `List (Nat × α)` ordered
front = least recently inserted/moved, back = most recently inserted/moved.
Python exceptions (KeyError on `popitem`/`move_to_end`, TypeError on
`self.frames[None]`, ZeroDivisionError, AttributeError) are modelled by `Option`
and `Except`: a `none`/`.error` result means the Python code raises.
-/

namespace MemSim

/-- Association-list model of a Python `OrderedDict` with `Nat` keys. -/
abbrev ODict (α : Type) := List (Nat × α)

/-- `d[k]` / `k in d`: first binding of `k` (keys are unique in any real `OrderedDict`). -/
def odLookup {α : Type} : ODict α → Nat → Option α
  | [], _ => none
  | (k', v') :: rest, k => if k' = k then some v' else odLookup rest k

/-- `k in d` as a Bool. -/
def odContains {α : Type} (d : ODict α) (k : Nat) : Bool :=
  (odLookup d k).isSome

/-- `d[k] = v`: update in place if the key is present (order preserved, as in a
Python dict), otherwise append at the most-recent end. -/
def odSet {α : Type} : ODict α → Nat → α → ODict α
  | [], k, v => [(k, v)]
  | (k', v') :: rest, k, v =>
    if k' = k then (k, v) :: rest else (k', v') :: odSet rest k v

/-- `del d[k]`: remove the first binding of `k` (no-op when absent; the source
only deletes after an `in` check). -/
def odDelete {α : Type} : ODict α → Nat → ODict α
  | [], _ => []
  | (k', v') :: rest, k => if k' = k then rest else (k', v') :: odDelete rest k

/-- `d.move_to_end(k)`: move the binding of `k` to the most-recent end. The
source only calls it on keys it has just checked for membership, except the
page-table move on a TLB hit, which is guarded explicitly at the call site. -/
def odMoveToEnd {α : Type} (d : ODict α) (k : Nat) : ODict α :=
  match odLookup d k with
  | none => d
  | some v => odDelete d k ++ [(k, v)]

/-- State of `MemorySimulator`: exactly the attributes `__init__` assigns.
TLB values are `Option Nat` because `access_memory` stores the `None` returned
by `_handle_page_fault` (which has no `return` statement) into the TLB. -/
structure MemorySimulator where
  debug : Bool
  page_size : Nat
  num_tlb_entries : Nat
  num_frames : Nat
  rep_policy : String
  tlb : ODict (Option Nat)
  page_table : ODict Nat
  frames : List (Option Nat)
  tlb_hits : Nat
  tlb_misses : Nat
  page_faults : Nat
deriving DecidableEq, Repr

/-- `MemorySimulator.__init__`: stores the parameters, raises `ValueError` when
the policy string is not `LRU`/`SecondChance`, and performs no other
validation. `page_size`, `num_tlb_entries`, `num_frames` are accepted as given. -/
def mkMemorySimulator (page_size num_tlb_entries num_frames : Nat)
    (rep_policy : String) (debug : Bool) : Except String MemorySimulator :=
  if rep_policy = "LRU" ∨ rep_policy = "SecondChance" then
    .ok { debug := debug
          page_size := page_size
          num_tlb_entries := num_tlb_entries
          num_frames := num_frames
          rep_policy := rep_policy
          tlb := []
          page_table := []
          frames := List.replicate num_frames none
          tlb_hits := 0
          tlb_misses := 0
          page_faults := 0 }
  else
    .error "ValueError: Politica de substituicao invalida. Use LRU ou SecondChance."

/-- `MemorySimulator._update_tlb`: if `len(tlb) >= num_tlb_entries`, pop the
least-recent entry first (KeyError — `none` — when the TLB is empty, which Python
`popitem` raises for capacity 0), then `tlb[page] = frame`. The pop happens
whether or not `page` is already present. -/
def update_tlb (s : MemorySimulator) (page_number : Nat) (frame_number : Option Nat) :
    Option MemorySimulator :=
  if s.num_tlb_entries ≤ s.tlb.length then
    match s.tlb with
    | [] => none
    | _ :: rest => some { s with tlb := odSet rest page_number frame_number }
  else
    some { s with tlb := odSet s.tlb page_number frame_number }

/-- `MemorySimulator._allocate_frame`: first-fit scan for a free frame. -/
def allocate_frame : List (Option Nat) → Option Nat
  | [] => none
  | none :: _ => some 0
  | some _ :: rest => (allocate_frame rest).map (· + 1)

/-- `MemorySimulator._find_victim_lru`: `page_table.popitem(last=False)` (KeyError
— `none` — on an empty table), delete the victim page from the TLB if present,
return the updated state and the victim frame. -/
def find_victim_lru (s : MemorySimulator) : Option (MemorySimulator × Nat) :=
  match s.page_table with
  | [] => none
  | (victim_page, frame_to_evict) :: rest =>
    some ({ s with page_table := rest, tlb := odDelete s.tlb victim_page },
          frame_to_evict)

/-- `MemorySimulator._handle_page_fault`: find a free frame, otherwise defer to
the configured policy; then `frames[frame] = page`, `page_table[page] = frame`,
`_update_tlb(page, frame)`. `_find_victim_second_chance` is an unimplemented
stub (`pass`, i.e. it returns `None`), so in the SecondChance branch
`self.frames[None]` raises TypeError — modelled as `none`. Note the Python
function itself has no `return` statement: its caller receives `None`. -/
def handle_page_fault (s : MemorySimulator) (page_number : Nat) :
    Option MemorySimulator :=
  match allocate_frame s.frames with
  | some frame_number =>
    update_tlb
      { s with frames := s.frames.set frame_number (some page_number)
               page_table := odSet s.page_table page_number frame_number }
      page_number (some frame_number)
  | none =>
    if s.rep_policy = "LRU" then
      match find_victim_lru s with
      | none => none
      | some (s1, frame_number) =>
        update_tlb
          { s1 with frames := s1.frames.set frame_number (some page_number)
                    page_table := odSet s1.page_table page_number frame_number }
          page_number (some frame_number)
    else
      none

/-- `MemorySimulator.access_memory`, with explicit fuel for the recursive
`self.access_memory(virtual_address)` retry that the source performs after
handling a page fault. A zero `page_size` raises ZeroDivisionError. On a TLB
hit the source calls `page_table.move_to_end(page)`, which raises KeyError when
the page is absent from the page table — hence the explicit guard. The source
increments `tlb_misses` once, before the page-table lookup; since the lookup
does not read the counters, that increment is folded into each of the two
branches below it. After a fault, `frame_number` is the `None` returned by
`_handle_page_fault`, and that `None` is what `_update_tlb` stores. -/
def access_memory_fuel : Nat → MemorySimulator → Nat → Option MemorySimulator
  | 0, _, _ => none
  | fuel + 1, s, virtual_address =>
    if s.page_size = 0 then none else
    if odContains s.tlb (virtual_address / s.page_size) then
      if odContains s.page_table (virtual_address / s.page_size) then
        some { s with
          tlb_hits := s.tlb_hits + 1
          tlb := odMoveToEnd s.tlb (virtual_address / s.page_size)
          page_table := odMoveToEnd s.page_table (virtual_address / s.page_size) }
      else
        none
    else
      match odLookup s.page_table (virtual_address / s.page_size) with
      | some frame_number =>
        update_tlb { s with
            tlb_misses := s.tlb_misses + 1
            page_table := odMoveToEnd s.page_table (virtual_address / s.page_size) }
          (virtual_address / s.page_size) (some frame_number)
      | none =>
        match handle_page_fault { s with
            tlb_misses := s.tlb_misses + 1
            page_faults := s.page_faults + 1 } (virtual_address / s.page_size) with
        | none => none
        | some s3 =>
          match update_tlb s3 (virtual_address / s.page_size) none with
          | none => none
          | some s4 => access_memory_fuel fuel s4 virtual_address

/-- `MemorySimulator.access_memory`. Fuel 2 is exact: the recursive retry after
a page fault always finds the page in the TLB (it was just written by
`_update_tlb`), so the Python recursion has depth at most 2; this is proved as
part of the fuel-irrelevance statement below. -/
def access_memory (s : MemorySimulator) (virtual_address : Nat) :
    Option MemorySimulator :=
  access_memory_fuel 2 s virtual_address

/-- A sequence of `access_memory` calls; `none` as soon as one of them raises. -/
def run : MemorySimulator → List Nat → Option MemorySimulator
  | s, [] => some s
  | s, a :: rest =>
    match access_memory s a with
    | none => none
    | some t => run t rest

/-- Values a `MemorySimulator` attribute can hold, for modelling Python
attribute lookup. -/
inductive AttrValue where
  | boolV : Bool → AttrValue
  | natV : Nat → AttrValue
  | strV : String → AttrValue
  | tlbV : ODict (Option Nat) → AttrValue
  | ptV : ODict Nat → AttrValue
  | framesV : List (Option Nat) → AttrValue
deriving DecidableEq, Repr

/-- Python attribute lookup on a `MemorySimulator` instance: exactly the
attributes assigned in `__init__`, under their source names. Any other name
raises AttributeError (`none`). In particular the `__init__` attribute is named
`rep_policy`; there is no attribute `replacement_policy`. -/
def getattr (s : MemorySimulator) (name : String) : Option AttrValue :=
  if name = "debug" then some (.boolV s.debug)
  else if name = "page_size" then some (.natV s.page_size)
  else if name = "num_tlb_entries" then some (.natV s.num_tlb_entries)
  else if name = "num_frames" then some (.natV s.num_frames)
  else if name = "rep_policy" then some (.strV s.rep_policy)
  else if name = "tlb" then some (.tlbV s.tlb)
  else if name = "page_table" then some (.ptV s.page_table)
  else if name = "frames" then some (.framesV s.frames)
  else if name = "tlb_hits" then some (.natV s.tlb_hits)
  else if name = "tlb_misses" then some (.natV s.tlb_misses)
  else if name = "page_faults" then some (.natV s.page_faults)
  else none

/-- Insert a comma after every third character of a reversed digit string:
helper for Python's thousands-grouping format spec. -/
def commifyRev : List Char → List Char
  | c1 :: c2 :: c3 :: c4 :: rest => c1 :: c2 :: c3 :: ',' :: commifyRev (c4 :: rest)
  | l => l

/-- Python `<n:,>` thousands-grouped rendering of a natural number. -/
def formatThousands (n : Nat) : String :=
  String.mk (commifyRev (toString n).data.reverse).reverse

/-- Rendering of an attribute value inside an f-string. -/
def attrStr : AttrValue → String
  | .strV v => v
  | .natV v => toString v
  | .boolV v => if v then "True" else "False"
  | _ => ""

/-- `MemorySimulator.print_statistics`: the lines printed, in order, paired with
the error raised, if any. The fourth line interpolates
`self.replacement_policy`, an attribute `__init__` never assigns (the field is
`rep_policy`), so Python raises AttributeError after the three header lines. -/
def print_statistics (s : MemorySimulator) : List String × Option String :=
  let eq60 := String.mk (List.replicate 60 '=')
  let dash60 := String.mk (List.replicate 60 '-')
  let header := [eq60, "SIMULADOR DE MEMÓRIA - Estatísticas de Acesso", eq60]
  match getattr s "replacement_policy" with
  | none =>
    (header,
     some "AttributeError: MemorySimulator object has no attribute replacement_policy")
  | some pol =>
    (header ++
      ["Política de Substituição:   " ++ attrStr pol,
       "Tamanho da Página:          " ++ toString s.page_size ++ " bytes",
       "Entradas na TLB:            " ++ toString s.num_tlb_entries,
       "Número de Frames:           " ++ toString s.num_frames,
       dash60,
       "TLB Hits:                   " ++ formatThousands s.tlb_hits,
       "TLB Misses:                 " ++ formatThousands s.tlb_misses,
       "Page Faults:                " ++ formatThousands s.page_faults,
       eq60],
     none)

/-- Free frames occupied by a resident page: `countP isSome` over the frame list. -/
def occupied (frames : List (Option Nat)) : Nat :=
  frames.countP (fun o => o.isSome)

/-- The simulator of the spec's end-to-end scenario:
`MemorySimulator(page_size=4096, num_tlb_entries=1, num_frames=2, rep_policy="LRU")`. -/
def simC4 : MemorySimulator :=
  { debug := false, page_size := 4096, num_tlb_entries := 1, num_frames := 2,
    rep_policy := "LRU", tlb := [], page_table := [],
    frames := List.replicate 2 none, tlb_hits := 0, tlb_misses := 0, page_faults := 0 }

/-- `MemorySimulator(4096, 1, 1, "SecondChance")`. -/
def simSC : MemorySimulator :=
  { simC4 with
    rep_policy := "SecondChance"
    num_frames := 1
    frames := List.replicate 1 none }

/-- `MemorySimulator(4096, 2, 2, "LRU")`. -/
def sim22 : MemorySimulator :=
  { simC4 with num_tlb_entries := 2 }

/-- State of `simC4` after `access_memory(0)`. -/
def sAfter1 : MemorySimulator :=
  { simC4 with
    tlb := [(0, none)]
    page_table := [(0, 0)]
    frames := [some 0, none]
    tlb_hits := 1
    tlb_misses := 1
    page_faults := 1 }

/-- State of `simC4` after `access_memory` on 0, 4096, 0. -/
def sAfter3 : MemorySimulator :=
  { simC4 with
    tlb := [(0, some 0)]
    page_table := [(1, 1), (0, 0)]
    frames := [some 0, some 1]
    tlb_hits := 2
    tlb_misses := 3
    page_faults := 2 }

/-- State of `simC4` after `access_memory` on 0, 4096, 0, 8192. -/
def sFinal : MemorySimulator :=
  { simC4 with
    tlb := [(2, none)]
    page_table := [(0, 0), (2, 1)]
    frames := [some 0, some 2]
    tlb_hits := 3
    tlb_misses := 4
    page_faults := 3 }

/-- A reachable-shaped TLB state at capacity with two entries, for exercising
`_update_tlb` on an already-present page. -/
def c6State : MemorySimulator :=
  { debug := false, page_size := 4096, num_tlb_entries := 2, num_frames := 4,
    rep_policy := "LRU", tlb := [(1, some 0), (2, some 1)],
    page_table := [(1, 0), (2, 1)], frames := [some 1, some 2, none, none],
    tlb_hits := 0, tlb_misses := 0, page_faults := 0 }

/-- Result of `_update_tlb(2, 5)` on `c6State`: the oldest TLB entry (page 1)
is evicted even though page 2 was already cached. -/
def c6StateAfter : MemorySimulator :=
  { c6State with tlb := [(2, some 5)] }

/-! ### Association-list lemmas -/

theorem odLookup_odSet_self {α : Type} (d : ODict α) (k : Nat) (v : α) :
    odLookup (odSet d k v) k = some v := by
  induction d with
  | nil => simp [odSet, odLookup]
  | cons hd rest ih =>
    obtain ⟨k', v'⟩ := hd
    by_cases hk : k' = k
    · subst hk; simp [odSet, odLookup]
    · simp [odSet, odLookup, hk, ih]

theorem odLookup_odSet_ne {α : Type} (d : ODict α) (k k' : Nat) (v : α)
    (h : k' ≠ k) : odLookup (odSet d k v) k' = odLookup d k' := by
  induction d with
  | nil => simp [odSet, odLookup, Ne.symm h]
  | cons hd rest ih =>
    obtain ⟨k0, v0⟩ := hd
    by_cases hk : k0 = k
    · subst hk
      simp [odSet, odLookup, Ne.symm h]
    · by_cases hk' : k0 = k'
      · subst hk'; simp [odSet, odLookup, hk]
      · simp [odSet, odLookup, hk, hk', ih]

theorem length_odSet_le {α : Type} (d : ODict α) (k : Nat) (v : α) :
    (odSet d k v).length ≤ d.length + 1 := by
  induction d with
  | nil => simp [odSet]
  | cons hd rest ih =>
    obtain ⟨k0, v0⟩ := hd
    by_cases hk : k0 = k
    · simp [odSet, hk]
    · simp only [odSet, if_neg hk, List.length_cons]
      omega

theorem odSet_absent {α : Type} (d : ODict α) (k : Nat) (v : α)
    (h : odLookup d k = none) : odSet d k v = d ++ [(k, v)] := by
  induction d with
  | nil => simp [odSet]
  | cons hd rest ih =>
    obtain ⟨k0, v0⟩ := hd
    by_cases hk : k0 = k
    · subst hk; simp [odLookup] at h
    · simp only [odLookup, if_neg hk] at h
      simp [odSet, hk, ih h]

theorem length_odDelete_le {α : Type} (d : ODict α) (k : Nat) :
    (odDelete d k).length ≤ d.length := by
  induction d with
  | nil => simp [odDelete]
  | cons hd rest ih =>
    obtain ⟨k0, v0⟩ := hd
    by_cases hk : k0 = k
    · simp [odDelete, hk]
    · simp only [odDelete, if_neg hk, List.length_cons]
      omega

theorem length_odDelete_present {α : Type} (d : ODict α) (k : Nat)
    (h : (odLookup d k).isSome) : (odDelete d k).length + 1 = d.length := by
  induction d with
  | nil => simp [odLookup] at h
  | cons hd rest ih =>
    obtain ⟨k0, v0⟩ := hd
    by_cases hk : k0 = k
    · simp [odDelete, hk]
    · simp only [odLookup, if_neg hk] at h
      simp only [odDelete, if_neg hk, List.length_cons]
      have := ih h
      omega

theorem odLookup_odDelete_ne {α : Type} (d : ODict α) (k k' : Nat)
    (h : k' ≠ k) : odLookup (odDelete d k) k' = odLookup d k' := by
  induction d with
  | nil => simp [odDelete]
  | cons hd rest ih =>
    obtain ⟨k0, v0⟩ := hd
    by_cases hk : k0 = k
    · subst hk
      simp [odDelete, odLookup, Ne.symm h]
    · by_cases hk' : k0 = k'
      · subst hk'; simp [odDelete, odLookup, hk]
      · simp [odDelete, odLookup, hk, hk', ih]

theorem odLookup_eq_none_of_not_mem {α : Type} (d : ODict α) (k : Nat)
    (h : k ∉ d.map Prod.fst) : odLookup d k = none := by
  induction d with
  | nil => simp [odLookup]
  | cons hd rest ih =>
    obtain ⟨k0, v0⟩ := hd
    simp only [List.map_cons, List.mem_cons] at h
    push_neg at h
    simp [odLookup, Ne.symm h.1, ih h.2]

theorem odLookup_odDelete_self {α : Type} (d : ODict α) (k : Nat)
    (h : (d.map Prod.fst).Nodup) : odLookup (odDelete d k) k = none := by
  induction d with
  | nil => simp [odDelete, odLookup]
  | cons hd rest ih =>
    obtain ⟨k0, v0⟩ := hd
    simp only [List.map_cons, List.nodup_cons] at h
    by_cases hk : k0 = k
    · subst hk
      simp only [odDelete, if_pos rfl]
      exact odLookup_eq_none_of_not_mem rest k0 h.1
    · simp [odDelete, odLookup, hk, ih h.2]

theorem odLookup_append_ne {α : Type} (l : ODict α) (k k' : Nat) (v : α)
    (h : k' ≠ k) : odLookup (l ++ [(k, v)]) k' = odLookup l k' := by
  induction l with
  | nil => simp [odLookup, Ne.symm h]
  | cons hd rest ih =>
    obtain ⟨k0, v0⟩ := hd
    by_cases hk : k0 = k'
    · simp [odLookup, hk]
    · simp [odLookup, hk, ih]

theorem length_odMoveToEnd {α : Type} (d : ODict α) (k : Nat) :
    (odMoveToEnd d k).length = d.length := by
  unfold odMoveToEnd
  cases h : odLookup d k with
  | none => rfl
  | some v =>
    have := length_odDelete_present d k (by simp [h])
    simp only [List.length_append, List.length_cons, List.length_nil]
    omega

theorem odLookup_odMoveToEnd_ne {α : Type} (d : ODict α) (k k' : Nat)
    (h : k' ≠ k) : odLookup (odMoveToEnd d k) k' = odLookup d k' := by
  unfold odMoveToEnd
  cases hl : odLookup d k with
  | none => rfl
  | some v =>
    rw [odLookup_append_ne _ _ _ _ h, odLookup_odDelete_ne _ _ _ h]

theorem getLast_append_single {α : Type} (l : List α) (x : α) :
    (l ++ [x]).getLast? = some x := by
  induction l with
  | nil => rfl
  | cons hd rest ih =>
    rw [List.cons_append, List.getLast?_cons, ih]
    cases rest <;> simp_all

theorem getLast_odMoveToEnd {α : Type} (d : ODict α) (k : Nat) (v : α)
    (h : odLookup d k = some v) : (odMoveToEnd d k).getLast? = some (k, v) := by
  unfold odMoveToEnd
  rw [h]
  exact getLast_append_single _ _

theorem odLookup_cons_none {α : Type} (k0 : Nat) (v0 : α) (rest : ODict α)
    (k : Nat) (h : odLookup ((k0, v0) :: rest) k = none) :
    odLookup rest k = none := by
  by_cases hk : k0 = k
  · simp [odLookup, hk] at h
  · simpa [odLookup, hk] using h

/-! ### Behaviour of the simulator's helper operations -/

theorem update_tlb_spec (s : MemorySimulator) (p : Nat) (v : Option Nat)
    (s' : MemorySimulator) (h : update_tlb s p v = some s') :
    s'.page_size = s.page_size ∧ s'.num_tlb_entries = s.num_tlb_entries ∧
    s'.num_frames = s.num_frames ∧ s'.rep_policy = s.rep_policy ∧
    s'.page_table = s.page_table ∧ s'.frames = s.frames ∧
    s'.tlb_hits = s.tlb_hits ∧ s'.tlb_misses = s.tlb_misses ∧
    s'.page_faults = s.page_faults ∧
    odLookup s'.tlb p = some v ∧
    s'.tlb.length ≤ max s.num_tlb_entries s.tlb.length ∧
    (∀ q, q ≠ p → odLookup s.tlb q = none → odLookup s'.tlb q = none) := by
  unfold update_tlb at h
  by_cases hc : s.num_tlb_entries ≤ s.tlb.length
  · rw [if_pos hc] at h
    cases htlb : s.tlb with
    | nil => rw [htlb] at h; exact absurd h (by simp)
    | cons hd rest =>
      rw [htlb] at h
      simp only [Option.some.injEq] at h
      subst h
      refine ⟨rfl, rfl, rfl, rfl, rfl, rfl, rfl, rfl, rfl,
        odLookup_odSet_self _ _ _, ?_, ?_⟩
      · have h1 := length_odSet_le rest p v
        show (odSet rest p v).length ≤ max s.num_tlb_entries (hd :: rest).length
        simp only [List.length_cons]
        omega
      · intro q hq hnone
        show odLookup (odSet rest p v) q = none
        rw [odLookup_odSet_ne _ _ _ _ hq]
        exact odLookup_cons_none hd.1 hd.2 rest q hnone
  · rw [if_neg hc] at h
    simp only [Option.some.injEq] at h
    subst h
    refine ⟨rfl, rfl, rfl, rfl, rfl, rfl, rfl, rfl, rfl,
      odLookup_odSet_self _ _ _, ?_, ?_⟩
    · have h1 := length_odSet_le s.tlb p v
      have h2 : s.tlb.length < s.num_tlb_entries := Nat.lt_of_not_le hc
      show (odSet s.tlb p v).length ≤ max s.num_tlb_entries s.tlb.length
      omega
    · intro q hq hnone
      show odLookup (odSet s.tlb p v) q = none
      rw [odLookup_odSet_ne _ _ _ _ hq]
      exact hnone

theorem handle_page_fault_cases (s : MemorySimulator) (p : Nat)
    (s' : MemorySimulator) (h : handle_page_fault s p = some s') :
    (∃ f, allocate_frame s.frames = some f ∧
      update_tlb { s with
          frames := s.frames.set f (some p)
          page_table := odSet s.page_table p f } p (some f) = some s') ∨
    (allocate_frame s.frames = none ∧ s.rep_policy = "LRU" ∧
      ∃ p0 f0 rest, s.page_table = (p0, f0) :: rest ∧
        update_tlb { s with
            page_table := odSet rest p f0
            tlb := odDelete s.tlb p0
            frames := s.frames.set f0 (some p) } p (some f0) = some s') := by
  unfold handle_page_fault at h
  cases halloc : allocate_frame s.frames with
  | some f =>
    rw [halloc] at h
    exact Or.inl ⟨f, rfl, h⟩
  | none =>
    rw [halloc] at h
    by_cases hpol : s.rep_policy = "LRU"
    · rw [if_pos hpol] at h
      unfold find_victim_lru at h
      cases hpt : s.page_table with
      | nil =>
        rw [hpt] at h
        exact Option.noConfusion h
      | cons hd rest =>
        obtain ⟨p0, f0⟩ := hd
        rw [hpt] at h
        exact Or.inr ⟨rfl, hpol, p0, f0, rest, rfl, h⟩
    · rw [if_neg hpol] at h
      exact Option.noConfusion h

theorem access_memory_cases (s : MemorySimulator) (va : Nat)
    (s' : MemorySimulator) (h : access_memory s va = some s') :
    s.page_size ≠ 0 ∧
    ((odContains s.tlb (va / s.page_size) = true ∧
      odContains s.page_table (va / s.page_size) = true ∧
      s' = { s with
          tlb_hits := s.tlb_hits + 1
          tlb := odMoveToEnd s.tlb (va / s.page_size)
          page_table := odMoveToEnd s.page_table (va / s.page_size) }) ∨
     (odLookup s.tlb (va / s.page_size) = none ∧
      (∃ f, odLookup s.page_table (va / s.page_size) = some f ∧
        update_tlb { s with
            tlb_misses := s.tlb_misses + 1
            page_table := odMoveToEnd s.page_table (va / s.page_size) }
          (va / s.page_size) (some f) = some s')) ∨
     (odLookup s.tlb (va / s.page_size) = none ∧
      odLookup s.page_table (va / s.page_size) = none ∧
      (∃ s3 s4, handle_page_fault
          { s with
            tlb_misses := s.tlb_misses + 1
            page_faults := s.page_faults + 1 }
          (va / s.page_size) = some s3 ∧
        update_tlb s3 (va / s.page_size) none = some s4 ∧
        odContains s4.tlb (va / s.page_size) = true ∧
        odContains s4.page_table (va / s.page_size) = true ∧
        s' = { s4 with
            tlb_hits := s4.tlb_hits + 1
            tlb := odMoveToEnd s4.tlb (va / s.page_size)
            page_table := odMoveToEnd s4.page_table (va / s.page_size) }))) := by
  unfold access_memory access_memory_fuel at h
  by_cases hps : s.page_size = 0
  · rw [if_pos hps] at h
    exact Option.noConfusion h
  rw [if_neg hps] at h
  refine ⟨hps, ?_⟩
  by_cases htlb : odContains s.tlb (va / s.page_size)
  · rw [if_pos htlb] at h
    by_cases hpt : odContains s.page_table (va / s.page_size)
    · rw [if_pos hpt] at h
      simp only [Option.some.injEq] at h
      exact Or.inl ⟨htlb, hpt, h.symm⟩
    · rw [if_neg hpt] at h
      exact Option.noConfusion h
  · rw [if_neg htlb] at h
    have htlb0 : odLookup s.tlb (va / s.page_size) = none := by
      cases hl : odLookup s.tlb (va / s.page_size) with
      | none => rfl
      | some v => rw [odContains, hl] at htlb; exact absurd rfl htlb
    cases hptl : odLookup s.page_table (va / s.page_size) with
    | some f =>
      rw [hptl] at h
      exact Or.inr (Or.inl ⟨htlb0, f, rfl, h⟩)
    | none =>
      rw [hptl] at h
      cases hhf : handle_page_fault
          { s with
            tlb_misses := s.tlb_misses + 1
            page_faults := s.page_faults + 1 }
          (va / s.page_size) with
      | none =>
        rw [hhf] at h
        exact Option.noConfusion h
      | some s3 =>
        rw [hhf] at h
        dsimp only at h
        cases hup : update_tlb s3 (va / s.page_size) none with
        | none =>
          rw [hup] at h
          exact Option.noConfusion h
        | some s4 =>
          rw [hup] at h
          dsimp only at h
          -- inner retry: fuel 1 on s4
          unfold access_memory_fuel at h
          have hps4 : s4.page_size = s.page_size := by
            have h1 := (update_tlb_spec _ _ _ _ hup).1
            rcases handle_page_fault_cases _ _ _ hhf with ⟨f, _, h2⟩ | ⟨_, _, p0, f0, rest, _, h2⟩
            · have h3 := (update_tlb_spec _ _ _ _ h2).1
              rw [h1, h3]
            · have h3 := (update_tlb_spec _ _ _ _ h2).1
              rw [h1, h3]
          have hps4ne : ¬ s4.page_size = 0 := by rw [hps4]; exact hps
          rw [if_neg hps4ne] at h
          rw [show va / s4.page_size = va / s.page_size from by rw [hps4]] at h
          have htlb4 : odContains s4.tlb (va / s.page_size) = true := by
            have h1 := (update_tlb_spec _ _ _ _ hup).2.2.2.2.2.2.2.2.2.1
            rw [odContains, h1]
            rfl
          rw [if_pos htlb4] at h
          by_cases hpt4 : odContains s4.page_table (va / s.page_size)
          · rw [if_pos hpt4] at h
            simp only [Option.some.injEq] at h
            refine Or.inr (Or.inr ⟨htlb0, ?_, s3, s4, ?_, hup, htlb4, hpt4, h.symm⟩)
            · rfl
            · rfl
          · rw [if_neg hpt4] at h
            exact Option.noConfusion h

theorem handle_page_fault_preserves (s : MemorySimulator) (p : Nat)
    (s' : MemorySimulator) (h : handle_page_fault s p = some s') :
    s'.page_size = s.page_size ∧ s'.num_tlb_entries = s.num_tlb_entries ∧
    s'.num_frames = s.num_frames ∧ s'.rep_policy = s.rep_policy ∧
    s'.tlb_hits = s.tlb_hits ∧ s'.tlb_misses = s.tlb_misses ∧
    s'.page_faults = s.page_faults ∧ s'.frames.length = s.frames.length := by
  rcases handle_page_fault_cases _ _ _ h with ⟨f, -, hup⟩ | ⟨-, -, p0, f0, rest, -, hup⟩
  · obtain ⟨h1, h2, h3, h4, h5, h6, h7, h8, h9, -⟩ := update_tlb_spec _ _ _ _ hup
    refine ⟨h1, h2, h3, h4, h7, h8, h9, ?_⟩
    rw [h6]
    exact List.length_set _ _ _
  · obtain ⟨h1, h2, h3, h4, h5, h6, h7, h8, h9, -⟩ := update_tlb_spec _ _ _ _ hup
    refine ⟨h1, h2, h3, h4, h7, h8, h9, ?_⟩
    rw [h6]
    exact List.length_set _ _ _

theorem access_counters (s : MemorySimulator) (va : Nat) (s' : MemorySimulator)
    (h : access_memory s va = some s') :
    (s'.tlb_hits = s.tlb_hits + 1 ∧ s'.tlb_misses = s.tlb_misses ∧
     s'.page_faults = s.page_faults) ∨
    (s'.tlb_hits = s.tlb_hits ∧ s'.tlb_misses = s.tlb_misses + 1 ∧
     s'.page_faults = s.page_faults) ∨
    (s'.tlb_hits = s.tlb_hits + 1 ∧ s'.tlb_misses = s.tlb_misses + 1 ∧
     s'.page_faults = s.page_faults + 1) := by
  obtain ⟨-, hcase⟩ := access_memory_cases s va s' h
  rcases hcase with ⟨-, -, rfl⟩ | ⟨-, f, -, hup⟩ | ⟨-, -, s3, s4, hhf, hup, -, -, rfl⟩
  · exact Or.inl ⟨rfl, rfl, rfl⟩
  · obtain ⟨-, -, -, -, -, -, h7, h8, h9, -⟩ := update_tlb_spec _ _ _ _ hup
    exact Or.inr (Or.inl ⟨h7, h8, h9⟩)
  · obtain ⟨-, -, -, -, g5, g6, g7, -⟩ := handle_page_fault_preserves _ _ _ hhf
    obtain ⟨-, -, -, -, -, -, h7, h8, h9, -⟩ := update_tlb_spec _ _ _ _ hup
    refine Or.inr (Or.inr ⟨?_, ?_, ?_⟩)
    · show s4.tlb_hits + 1 = s.tlb_hits + 1
      rw [h7, g5]
    · show s4.tlb_misses = s.tlb_misses + 1
      rw [h8, g6]
    · show s4.page_faults = s.page_faults + 1
      rw [h9, g7]

theorem access_memory_fuel_hit (n : Nat) (s : MemorySimulator) (va : Nat)
    (h : odContains s.tlb (va / s.page_size) = true) :
    access_memory_fuel (n + 1) s va = access_memory_fuel 1 s va := by
  unfold access_memory_fuel
  by_cases hps : s.page_size = 0
  · simp only [if_pos hps]
  · simp only [if_neg hps, if_pos h]

theorem access_memory_fuel_irrel (n : Nat) (s : MemorySimulator) (va : Nat) :
    access_memory_fuel (n + 2) s va = access_memory s va := by
  show access_memory_fuel (n + 2) s va = access_memory_fuel 2 s va
  unfold access_memory_fuel
  by_cases hps : s.page_size = 0
  · simp only [if_pos hps]
  simp only [if_neg hps]
  by_cases htlb : odContains s.tlb (va / s.page_size)
  · simp only [if_pos htlb]
  simp only [if_neg htlb]
  cases hptl : odLookup s.page_table (va / s.page_size) with
  | some f => rfl
  | none =>
    dsimp only
    cases hhf : handle_page_fault
        { s with
          tlb_misses := s.tlb_misses + 1
          page_faults := s.page_faults + 1 }
        (va / s.page_size) with
    | none => rfl
    | some s3 =>
      dsimp only
      cases hup : update_tlb s3 (va / s.page_size) none with
      | none => rfl
      | some s4 =>
        dsimp only
        have hps4 : s4.page_size = s.page_size := by
          have h1 := (update_tlb_spec _ _ _ _ hup).1
          have h2 := (handle_page_fault_preserves _ _ _ hhf).1
          rw [h1, h2]
        have htlb4 : odContains s4.tlb (va / s4.page_size) = true := by
          have h1 := (update_tlb_spec _ _ _ _ hup).2.2.2.2.2.2.2.2.2.1
          rw [hps4, odContains, h1]
          rfl
        exact access_memory_fuel_hit n s4 va htlb4

theorem occupied_nil_replicate (n : Nat) : occupied (List.replicate n none) = 0 := by
  induction n with
  | zero => rfl
  | succ m ih => simp [occupied, List.replicate, List.countP_cons] at ih ⊢

theorem occupied_set_some_ge (fr : List (Option Nat)) (i p : Nat) :
    occupied fr ≤ occupied (fr.set i (some p)) := by
  induction fr generalizing i with
  | nil => simp [occupied]
  | cons hd rest ih =>
    cases i with
    | zero =>
      cases hd <;> simp [List.set, occupied, List.countP_cons]
    | succ j =>
      simp only [List.set, occupied, List.countP_cons]
      have := ih j
      simp only [occupied] at this
      omega

theorem allocate_frame_lt (fr : List (Option Nat)) (i : Nat)
    (h : allocate_frame fr = some i) : i < fr.length := by
  induction fr generalizing i with
  | nil => exact Option.noConfusion h
  | cons hd rest ih =>
    cases hd with
    | none =>
      unfold allocate_frame at h
      simp only [Option.some.injEq] at h
      subst h
      simp only [List.length_cons]
      omega
    | some q =>
      unfold allocate_frame at h
      cases hr : allocate_frame rest with
      | none => rw [hr] at h; exact Option.noConfusion h
      | some j =>
        rw [hr] at h
        injection h with h
        subst h
        have := ih j hr
        simp only [List.length_cons]
        omega

theorem allocate_frame_occupied (fr : List (Option Nat)) (i p : Nat)
    (h : allocate_frame fr = some i) :
    occupied (fr.set i (some p)) = occupied fr + 1 := by
  induction fr generalizing i with
  | nil => exact Option.noConfusion h
  | cons hd rest ih =>
    cases hd with
    | none =>
      unfold allocate_frame at h
      simp only [Option.some.injEq] at h
      subst h
      simp [occupied, List.set, List.countP_cons]
    | some q =>
      unfold allocate_frame at h
      cases hr : allocate_frame rest with
      | none => rw [hr] at h; exact Option.noConfusion h
      | some j =>
        rw [hr] at h
        injection h with h
        subst h
        have := ih j hr
        simp only [List.set, occupied, List.countP_cons] at this ⊢
        omega

/-- The capacity/consistency invariant that every reachable state satisfies:
the TLB never exceeds its configured capacity, the page table never has more
entries than there are occupied frames, and the frame list has the configured
length. -/
def CapInv (s : MemorySimulator) : Prop :=
  s.tlb.length ≤ s.num_tlb_entries ∧
  s.page_table.length ≤ occupied s.frames ∧
  s.frames.length = s.num_frames

theorem update_tlb_tlb_le (s : MemorySimulator) (p : Nat) (v : Option Nat)
    (s' : MemorySimulator) (h : update_tlb s p v = some s')
    (hle : s.tlb.length ≤ s.num_tlb_entries) :
    s'.tlb.length ≤ s.num_tlb_entries := by
  have h11 := (update_tlb_spec _ _ _ _ h).2.2.2.2.2.2.2.2.2.2.1
  calc s'.tlb.length ≤ max s.num_tlb_entries s.tlb.length := h11
    _ = s.num_tlb_entries := Nat.max_eq_left hle

theorem handle_page_fault_capInv (s : MemorySimulator) (p : Nat)
    (s' : MemorySimulator) (h : handle_page_fault s p = some s')
    (hptl : odLookup s.page_table p = none) (hinv : CapInv s) : CapInv s' := by
  obtain ⟨htle, hptle, hlen⟩ := hinv
  rcases handle_page_fault_cases _ _ _ h with ⟨f, halloc, hup⟩ |
    ⟨-, -, p0, f0, rest, hpt, hup⟩
  · obtain ⟨-, h2, h3, -, h5, h6, -⟩ := update_tlb_spec _ _ _ _ hup
    refine ⟨?_, ?_, ?_⟩
    · rw [h2] at *
      exact update_tlb_tlb_le _ _ _ _ hup htle
    · rw [h5, h6]
      show (odSet s.page_table p f).length ≤ occupied (s.frames.set f (some p))
      rw [allocate_frame_occupied s.frames f p halloc]
      calc (odSet s.page_table p f).length ≤ s.page_table.length + 1 :=
            length_odSet_le _ _ _
        _ ≤ occupied s.frames + 1 := by omega
    · rw [h6, h3]
      show (s.frames.set f (some p)).length = s.num_frames
      rw [List.length_set]
      exact hlen
  · obtain ⟨-, h2, h3, -, h5, h6, -⟩ := update_tlb_spec _ _ _ _ hup
    refine ⟨?_, ?_, ?_⟩
    · rw [h2] at *
      have hdel : (odDelete s.tlb p0).length ≤ s.num_tlb_entries :=
        le_trans (length_odDelete_le _ _) htle
      have h11 := (update_tlb_spec _ _ _ _ hup).2.2.2.2.2.2.2.2.2.2.1
      calc s'.tlb.length ≤ max s.num_tlb_entries (odDelete s.tlb p0).length := h11
        _ = s.num_tlb_entries := Nat.max_eq_left hdel
    · rw [h5, h6]
      show (odSet rest p f0).length ≤ occupied (s.frames.set f0 (some p))
      have hrest : odLookup rest p = none := by
        rw [hpt] at hptl
        exact odLookup_cons_none p0 f0 rest p hptl
      rw [odSet_absent rest p f0 hrest]
      have : rest.length + 1 = s.page_table.length := by rw [hpt]; simp
      have hocc := occupied_set_some_ge s.frames f0 p
      simp only [List.length_append, List.length_cons, List.length_nil]
      omega
    · rw [h6, h3]
      show (s.frames.set f0 (some p)).length = s.num_frames
      rw [List.length_set]
      exact hlen

theorem access_memory_capInv (s : MemorySimulator) (va : Nat)
    (s' : MemorySimulator) (h : access_memory s va = some s') (hinv : CapInv s) :
    CapInv s' := by
  obtain ⟨htle, hptle, hlen⟩ := hinv
  obtain ⟨-, hcase⟩ := access_memory_cases s va s' h
  rcases hcase with ⟨-, -, rfl⟩ | ⟨-, f, -, hup⟩ | ⟨-, hptl, s3, s4, hhf, hup, -, -, rfl⟩
  · refine ⟨?_, ?_, hlen⟩
    · show (odMoveToEnd s.tlb (va / s.page_size)).length ≤ s.num_tlb_entries
      rw [length_odMoveToEnd]
      exact htle
    · show (odMoveToEnd s.page_table (va / s.page_size)).length ≤ occupied s.frames
      rw [length_odMoveToEnd]
      exact hptle
  · obtain ⟨-, h2, h3, -, h5, h6, -⟩ := update_tlb_spec _ _ _ _ hup
    refine ⟨?_, ?_, ?_⟩
    · rw [h2] at *
      exact update_tlb_tlb_le _ _ _ _ hup htle
    · rw [h5, h6]
      show (odMoveToEnd s.page_table (va / s.page_size)).length ≤ occupied s.frames
      rw [length_odMoveToEnd]
      exact hptle
    · rw [h6, h3]
      exact hlen
  · have hinv3 : CapInv s3 :=
      handle_page_fault_capInv _ _ _ hhf hptl ⟨htle, hptle, hlen⟩
    obtain ⟨g1, g2, g3⟩ := hinv3
    obtain ⟨-, h2, h3, -, h5, h6, -⟩ := update_tlb_spec _ _ _ _ hup
    refine ⟨?_, ?_, ?_⟩
    · show (odMoveToEnd s4.tlb (va / s.page_size)).length ≤ s4.num_tlb_entries
      rw [length_odMoveToEnd, h2]
      exact update_tlb_tlb_le _ _ _ _ hup g1
    · show (odMoveToEnd s4.page_table (va / s.page_size)).length ≤ occupied s4.frames
      rw [length_odMoveToEnd, h5, h6]
      exact g2
    · show s4.frames.length = s4.num_frames
      rw [h6, h3]
      exact g3

theorem access_config (s : MemorySimulator) (va : Nat) (s' : MemorySimulator)
    (h : access_memory s va = some s') :
    s'.page_size = s.page_size ∧ s'.num_tlb_entries = s.num_tlb_entries ∧
    s'.num_frames = s.num_frames ∧ s'.rep_policy = s.rep_policy := by
  obtain ⟨-, hcase⟩ := access_memory_cases s va s' h
  rcases hcase with ⟨-, -, rfl⟩ | ⟨-, f, -, hup⟩ | ⟨-, -, s3, s4, hhf, hup, -, -, rfl⟩
  · exact ⟨rfl, rfl, rfl, rfl⟩
  · obtain ⟨h1, h2, h3, h4, -⟩ := update_tlb_spec _ _ _ _ hup
    exact ⟨h1, h2, h3, h4⟩
  · obtain ⟨g1, g2, g3, g4, -⟩ := handle_page_fault_preserves _ _ _ hhf
    obtain ⟨h1, h2, h3, h4, -⟩ := update_tlb_spec _ _ _ _ hup
    exact ⟨by rw [h1, g1], by rw [h2, g2], by rw [h3, g3], by rw [h4, g4]⟩

theorem run_capInv (trace : List Nat) (s s' : MemorySimulator)
    (h : run s trace = some s') (hinv : CapInv s) :
    CapInv s' ∧ s'.num_tlb_entries = s.num_tlb_entries ∧
    s'.num_frames = s.num_frames := by
  induction trace generalizing s with
  | nil =>
    unfold run at h
    simp only [Option.some.injEq] at h
    subst h
    exact ⟨hinv, rfl, rfl⟩
  | cons a rest ih =>
    unfold run at h
    cases hac : access_memory s a with
    | none => rw [hac] at h; exact Option.noConfusion h
    | some t =>
      rw [hac] at h
      have hinvt := access_memory_capInv s a t hac hinv
      obtain ⟨hc1, hc2, hc3, hc4⟩ := access_config s a t hac
      obtain ⟨hi, he1, he2⟩ := ih t h hinvt
      exact ⟨hi, by rw [he1, hc2], by rw [he2, hc3]⟩

theorem run_counters (trace : List Nat) (s s' : MemorySimulator)
    (h : run s trace = some s')
    (hle : s.page_faults ≤ s.tlb_misses) :
    s'.page_faults ≤ s'.tlb_misses ∧ s.tlb_hits ≤ s'.tlb_hits ∧
    s.tlb_misses ≤ s'.tlb_misses ∧ s.page_faults ≤ s'.page_faults := by
  induction trace generalizing s with
  | nil =>
    unfold run at h
    simp only [Option.some.injEq] at h
    subst h
    exact ⟨hle, le_refl _, le_refl _, le_refl _⟩
  | cons a rest ih =>
    unfold run at h
    cases hac : access_memory s a with
    | none => rw [hac] at h; exact Option.noConfusion h
    | some t =>
      rw [hac] at h
      have hstep := access_counters s a t hac
      have hlet : t.page_faults ≤ t.tlb_misses := by
        rcases hstep with ⟨-, hm, hp⟩ | ⟨-, hm, hp⟩ | ⟨-, hm, hp⟩ <;> omega
      obtain ⟨hi, hh, hm, hp⟩ := ih t h hlet
      rcases hstep with ⟨sh, sm, sp⟩ | ⟨sh, sm, sp⟩ | ⟨sh, sm, sp⟩ <;>
        exact ⟨hi, by omega, by omega, by omega⟩

theorem access_recency (s : MemorySimulator) (va : Nat) (s' : MemorySimulator)
    (h : access_memory s va = some s') :
    (s'.page_table.getLast?).map Prod.fst = some (va / s.page_size) := by
  obtain ⟨-, hcase⟩ := access_memory_cases s va s' h
  rcases hcase with ⟨-, hpt, rfl⟩ | ⟨-, f, hptl, hup⟩ | ⟨-, -, s3, s4, hhf, hup, -, hpt4, rfl⟩
  · unfold odContains at hpt
    obtain ⟨v, hv⟩ := Option.isSome_iff_exists.mp hpt
    show ((odMoveToEnd s.page_table (va / s.page_size)).getLast?).map Prod.fst = _
    rw [getLast_odMoveToEnd _ _ _ hv]
    rfl
  · have h5 := (update_tlb_spec _ _ _ _ hup).2.2.2.2.1
    rw [h5]
    show ((odMoveToEnd s.page_table (va / s.page_size)).getLast?).map Prod.fst = _
    rw [getLast_odMoveToEnd _ _ _ hptl]
    rfl
  · unfold odContains at hpt4
    obtain ⟨v, hv⟩ := Option.isSome_iff_exists.mp hpt4
    show ((odMoveToEnd s4.page_table (va / s.page_size)).getLast?).map Prod.fst = _
    rw [getLast_odMoveToEnd _ _ _ hv]
    rfl

theorem access_lru_evicts (s : MemorySimulator) (va : Nat) (s' : MemorySimulator)
    (p0 f0 : Nat) (rest : ODict Nat)
    (h : access_memory s va = some s')
    (hpt : s.page_table = (p0, f0) :: rest)
    (hrest : odLookup rest p0 = none)
    (hnodup : (s.tlb.map Prod.fst).Nodup)
    (htlb : odLookup s.tlb (va / s.page_size) = none)
    (hptl : odLookup s.page_table (va / s.page_size) = none)
    (halloc : allocate_frame s.frames = none) :
    odLookup s'.page_table p0 = none ∧ odLookup s'.tlb p0 = none := by
  have hp0p : p0 ≠ va / s.page_size := by
    intro he
    rw [hpt] at hptl
    unfold odLookup at hptl
    rw [if_pos he] at hptl
    exact Option.noConfusion hptl
  obtain ⟨-, hcase⟩ := access_memory_cases s va s' h
  rcases hcase with ⟨hc, -, -⟩ | ⟨-, f, hc, -⟩ | ⟨-, -, s3, s4, hhf, hup, -, -, rfl⟩
  · unfold odContains at hc
    rw [htlb] at hc
    simp at hc
  · rw [hptl] at hc
    exact Option.noConfusion hc
  · rcases handle_page_fault_cases _ _ _ hhf with ⟨f, hf, -⟩ |
      ⟨-, -, p0', f0', rest', hpt', hup3⟩
    · have hf' : allocate_frame s.frames = some f := hf
      rw [halloc] at hf'
      exact Option.noConfusion hf'
    · have hx : s.page_table = (p0', f0') :: rest' := hpt'
      rw [hpt] at hx
      simp only [List.cons.injEq, Prod.mk.injEq] at hx
      obtain ⟨⟨he1, he2⟩, he3⟩ := hx
      subst he1
      subst he2
      subst he3
      have htlb3 : odLookup s3.tlb p0 = none := by
        have h12 := (update_tlb_spec _ _ _ _ hup3).2.2.2.2.2.2.2.2.2.2.2
        refine h12 p0 hp0p ?_
        show odLookup (odDelete s.tlb p0) p0 = none
        exact odLookup_odDelete_self s.tlb p0 hnodup
      have htlb4 : odLookup s4.tlb p0 = none := by
        have h12 := (update_tlb_spec _ _ _ _ hup).2.2.2.2.2.2.2.2.2.2.2
        exact h12 p0 hp0p htlb3
      have hpt3 : odLookup s3.page_table p0 = none := by
        have h5 := (update_tlb_spec _ _ _ _ hup3).2.2.2.2.1
        rw [h5]
        show odLookup (odSet rest (va / s.page_size) f0) p0 = none
        rw [odLookup_odSet_ne _ _ _ _ hp0p]
        exact hrest
      have hpt4 : odLookup s4.page_table p0 = none := by
        have h5 := (update_tlb_spec _ _ _ _ hup).2.2.2.2.1
        rw [h5]
        exact hpt3
      constructor
      · show odLookup (odMoveToEnd s4.page_table (va / s.page_size)) p0 = none
        rw [odLookup_odMoveToEnd_ne _ _ _ hp0p]
        exact hpt4
      · show odLookup (odMoveToEnd s4.tlb (va / s.page_size)) p0 = none
        rw [odLookup_odMoveToEnd_ne _ _ _ hp0p]
        exact htlb4

/-! ### Claim theorems -/

/-- C1 counterexample: the claim says each `access_memory` call increments
exactly one of `tlb_hits`/`tlb_misses` (plus `page_faults` in the fault case),
i.e. a faulting access from fresh counters would end with (0, 1, 1). On the
code, the very first access of the spec's own scenario ends with
(tlb_hits, tlb_misses, page_faults) = (1, 1, 1): the recursive retry after the
fault re-enters the TLB lookup and also counts a TLB hit. -/
theorem C1_counterexample :
    (run simC4 [0]).map (fun s => (s.tlb_hits, s.tlb_misses, s.page_faults)) =
      some (1, 1, 1) ∧
    (run simC4 [0]).map (fun s => (s.tlb_hits, s.tlb_misses, s.page_faults)) ≠
      some (0, 1, 1) := by
  constructor
  · decide
  · decide

/-- C1 (amended): the fault path installs the mapping and then re-invokes
`access_memory`; the retry is guaranteed to be a TLB hit, so the recursion
terminates with depth exactly 2 (fuel beyond 2 never changes the result), and
every successful access is exactly one of: TLB hit (hits+1), TLB miss +
page-table hit (misses+1), or TLB miss + fault + retry-hit, which increments
`tlb_hits`, `tlb_misses` AND `page_faults` by one each. -/
theorem C1_access_classification (s : MemorySimulator) (virtual_address : Nat) :
    (∀ n, access_memory_fuel (n + 2) s virtual_address =
      access_memory s virtual_address) ∧
    (∀ s', access_memory s virtual_address = some s' →
      (s'.tlb_hits = s.tlb_hits + 1 ∧ s'.tlb_misses = s.tlb_misses ∧
       s'.page_faults = s.page_faults) ∨
      (s'.tlb_hits = s.tlb_hits ∧ s'.tlb_misses = s.tlb_misses + 1 ∧
       s'.page_faults = s.page_faults) ∨
      (s'.tlb_hits = s.tlb_hits + 1 ∧ s'.tlb_misses = s.tlb_misses + 1 ∧
       s'.page_faults = s.page_faults + 1)) :=
  ⟨fun n => access_memory_fuel_irrel n s virtual_address,
   fun s' h => access_counters s virtual_address s' h⟩

/-- C1 witness: the amended claim applied to the first access of the spec
scenario, which faults and therefore increments all three counters. -/
theorem C1_witness :
    access_memory_fuel 5 simC4 0 = access_memory simC4 0 ∧
    ((sAfter1.tlb_hits = simC4.tlb_hits + 1 ∧ sAfter1.tlb_misses = simC4.tlb_misses ∧
      sAfter1.page_faults = simC4.page_faults) ∨
     (sAfter1.tlb_hits = simC4.tlb_hits ∧ sAfter1.tlb_misses = simC4.tlb_misses + 1 ∧
      sAfter1.page_faults = simC4.page_faults) ∨
     (sAfter1.tlb_hits = simC4.tlb_hits + 1 ∧ sAfter1.tlb_misses = simC4.tlb_misses + 1 ∧
      sAfter1.page_faults = simC4.page_faults + 1)) :=
  ⟨(C1_access_classification simC4 0).1 3,
   (C1_access_classification simC4 0).2 sAfter1 (by decide)⟩

/-- C2: `_handle_page_fault`'s docstring promises to return the frame number,
but the function has no `return` statement: it returns `None`, and
`access_memory` stores that `None` into the TLB. After one access on a freshly
constructed simulator the TLB maps page 0 to `None` while the page table maps
page 0 to frame 0, so the TLB entry does NOT match the page-table frame
(invariant I1 broken immediately after a fault). -/
theorem C2_tlb_holds_none :
    mkMemorySimulator 4096 2 2 "LRU" false = Except.ok sim22 ∧
    (run sim22 [0]).map (fun s => (odLookup s.tlb 0, odLookup s.page_table 0)) =
      some (some none, some 0) ∧
    (some (none : Option Nat) : Option (Option Nat)) ≠ some (some 0) := by
  refine ⟨rfl, by decide, by decide⟩

/-- C3: with `rep_policy = "SecondChance"` (a valid configuration) the first
access succeeds, but as soon as all frames are occupied the next fault calls
`_find_victim_second_chance`, an unimplemented stub that returns `None`;
`_handle_page_fault` then executes `self.frames[None]`, raising TypeError, so
`access_memory` does NOT always succeed. -/
theorem C3_second_chance_crashes :
    mkMemorySimulator 4096 1 1 "SecondChance" false = Except.ok simSC ∧
    (run simSC [0]).isSome = true ∧
    run simSC [0, 4096] = none := by
  refine ⟨rfl, by decide, by decide⟩

/-- C4 counterexample: on the spec scenario (page_size=4096, tlb_entries=1,
num_frames=2, LRU; accesses 0, 4096, 0, 8192) the final counters are NOT
(tlb_hits, tlb_misses, page_faults) = (0, 3, 3). -/
theorem C4_counterexample :
    (run simC4 [0, 4096, 0, 8192]).map
      (fun s => (s.tlb_hits, s.tlb_misses, s.page_faults)) ≠ some (0, 3, 3) := by
  decide

/-- C4 (amended): the scenario yields tlb_hits=3, tlb_misses=4, page_faults=3
(each of the three faulting accesses also counts one TLB hit from the recursive
retry, and every one of the four accesses counts a TLB miss), and the fourth
access does fault and evict page 1: afterwards page 1 is absent from the page
table and page 2 occupies frame 1. -/
theorem C4_actual_statistics :
    (run simC4 [0, 4096, 0, 8192]).map
      (fun s => (s.tlb_hits, s.tlb_misses, s.page_faults)) = some (3, 4, 3) ∧
    (run simC4 [0, 4096, 0, 8192]).map (fun s => odLookup s.page_table 1) =
      some none ∧
    (run simC4 [0, 4096, 0, 8192]).map (fun s => odLookup s.page_table 2) =
      some (some 1) := by
  refine ⟨by decide, by decide, by decide⟩

/-- C5 counterexample: the constructor accepts page_size = 0, tlb_entries = 0
and num_frames = 0 (all non-positive) without raising; only the policy string
is validated. -/
theorem C5_counterexample :
    (mkMemorySimulator 0 0 0 "LRU" false).toOption.isSome = true := by decide

/-- C5 (amended): construction succeeds if and only if the policy string is
"LRU" or "SecondChance"; `page_size`, `num_tlb_entries` and `num_frames` are
not validated at all, so non-positive values are accepted. -/
theorem C5_policy_only_validation (page_size num_tlb_entries num_frames : Nat)
    (rep_policy : String) (debug : Bool) :
    (mkMemorySimulator page_size num_tlb_entries num_frames rep_policy
      debug).toOption.isSome = true ↔
      (rep_policy = "LRU" ∨ rep_policy = "SecondChance") := by
  unfold mkMemorySimulator
  by_cases hp : rep_policy = "LRU" ∨ rep_policy = "SecondChance"
  · rw [if_pos hp]
    exact ⟨fun _ => hp, fun _ => rfl⟩
  · rw [if_neg hp]
    exact ⟨fun hfalse => Bool.noConfusion hfalse, fun hor => absurd hor hp⟩

/-- C5 witness: the amended claim at the degenerate all-zero configuration. -/
theorem C5_witness :
    (mkMemorySimulator 0 0 0 "LRU" false).toOption.isSome = true ↔
      ("LRU" = "LRU" ∨ "LRU" = "SecondChance") :=
  C5_policy_only_validation 0 0 0 "LRU" false

/-- C6 counterexample: with the TLB at capacity 2 holding pages 1 and 2,
refreshing the already-present page 2 via `_update_tlb` evicts page 1: the
operation pops the least-recent entry whenever the TLB is at capacity, even
when the page is already present — contradicting the claim that a present page
is only refreshed and no other entry is evicted. -/
theorem C6_counterexample :
    odLookup c6State.tlb 2 = some (some 1) ∧
    (update_tlb c6State 2 (some 1)).map (fun s => s.tlb) = some [(2, some 1)] ∧
    (update_tlb c6State 2 (some 1)).map (fun s => odLookup s.tlb 1) = some none := by
  refine ⟨by decide, by decide, by decide⟩

/-- C6 (amended): whenever the TLB is at capacity, `_update_tlb` discards the
oldest TLB entry before writing the given page — regardless of whether that
page is already present; only below capacity is an existing entry updated
without any eviction. -/
theorem C6_eviction_at_capacity (s : MemorySimulator) (page : Nat) (v : Option Nat)
    (k0 : Nat) (v0 : Option Nat) (rest : ODict (Option Nat))
    (htlb : s.tlb = (k0, v0) :: rest)
    (hcap : s.num_tlb_entries ≤ s.tlb.length)
    (hne : k0 ≠ page)
    (hrest : odLookup rest k0 = none) :
    (update_tlb s page v).isSome = true ∧
    (∀ s', update_tlb s page v = some s' →
      odLookup s'.tlb k0 = none ∧ odLookup s'.tlb page = some v) := by
  unfold update_tlb
  rw [if_pos hcap, htlb]
  refine ⟨rfl, ?_⟩
  intro s' h
  simp only [Option.some.injEq] at h
  subst h
  constructor
  · show odLookup (odSet rest page v) k0 = none
    rw [odLookup_odSet_ne _ _ _ _ hne]
    exact hrest
  · exact odLookup_odSet_self _ _ _

/-- C6 witness: the amended claim at `c6State` — updating present page 2 at
capacity evicts the oldest entry, page 1. -/
theorem C6_witness :
    odLookup c6StateAfter.tlb 1 = none ∧
    odLookup c6StateAfter.tlb 2 = some (some 5) :=
  (C6_eviction_at_capacity c6State 2 (some 5) 1 (some 0) [(2, some 1)] rfl
    (by decide) (by decide) rfl).2 c6StateAfter (by decide)

/-- C7: after every successful `access_memory`, the accessed page sits at the
most-recently-used (last) position of the page table — recency is refreshed on
every resolution path (TLB hit, page-table hit, fault-install + retry) — and
when a fault occurs with no free frame, the page at the least-recently-used
(head) position of the page table is the victim: afterwards it is absent from
both the page table and the TLB. -/
theorem C7_lru_recency_and_victim (s : MemorySimulator) (virtual_address : Nat)
    (s' : MemorySimulator)
    (hacc : access_memory s virtual_address = some s') :
    (s'.page_table.getLast?).map Prod.fst =
      some (virtual_address / s.page_size) ∧
    (∀ p0 f0 rest,
      s.page_table = (p0, f0) :: rest →
      odLookup rest p0 = none →
      (s.tlb.map Prod.fst).Nodup →
      odLookup s.tlb (virtual_address / s.page_size) = none →
      odLookup s.page_table (virtual_address / s.page_size) = none →
      allocate_frame s.frames = none →
      odLookup s'.page_table p0 = none ∧ odLookup s'.tlb p0 = none) :=
  ⟨access_recency s virtual_address s' hacc,
   fun p0 f0 rest h1 h2 h3 h4 h5 h6 =>
     access_lru_evicts s virtual_address s' p0 f0 rest hacc h1 h2 h3 h4 h5 h6⟩

/-- C7 witness: the fourth access of the spec scenario — page 2 faults with
both frames occupied; page 1 (LRU position) is evicted from page table and
TLB, and page 2 ends at the most-recent position. -/
theorem C7_witness :
    (sFinal.page_table.getLast?).map Prod.fst = some 2 ∧
    odLookup sFinal.page_table 1 = none ∧ odLookup sFinal.tlb 1 = none := by
  have H := C7_lru_recency_and_victim sAfter3 8192 sFinal (by decide)
  refine ⟨H.1, ?_, ?_⟩
  · exact (H.2 1 1 [(0, 0)] rfl rfl (by decide) (by decide) (by decide)
      (by decide)).1
  · exact (H.2 1 1 [(0, 0)] rfl rfl (by decide) (by decide) (by decide)
      (by decide)).2

/-- C8: for every simulator the constructor actually returns and every access
trace that completes, the TLB never exceeds `num_tlb_entries` entries and the
page table never exceeds `num_frames` entries (every prefix of a trace is
itself a trace, so this bounds every intermediate point as well). -/
theorem C8_capacity_bounds (page_size num_tlb_entries num_frames : Nat)
    (rep_policy : String) (debug : Bool) (sim : MemorySimulator)
    (hmk : mkMemorySimulator page_size num_tlb_entries num_frames rep_policy
      debug = Except.ok sim)
    (trace : List Nat) (s' : MemorySimulator)
    (hrun : run sim trace = some s') :
    s'.tlb.length ≤ num_tlb_entries ∧ s'.page_table.length ≤ num_frames := by
  unfold mkMemorySimulator at hmk
  by_cases hp : rep_policy = "LRU" ∨ rep_policy = "SecondChance"
  · rw [if_pos hp] at hmk
    simp only [Except.ok.injEq] at hmk
    subst hmk
    obtain ⟨⟨b1, b2, b3⟩, he1, he2⟩ := run_capInv trace _ s' hrun
      ⟨Nat.zero_le _, Nat.zero_le _, List.length_replicate _ _⟩
    constructor
    · calc s'.tlb.length ≤ s'.num_tlb_entries := b1
        _ = num_tlb_entries := he1
    · calc s'.page_table.length ≤ occupied s'.frames := b2
        _ ≤ s'.frames.length := List.countP_le_length _
        _ = s'.num_frames := b3
        _ = num_frames := he2
  · rw [if_neg hp] at hmk
    exact Except.noConfusion hmk

/-- C8 witness: the bounds at the end of the spec scenario. -/
theorem C8_witness : sFinal.tlb.length ≤ 1 ∧ sFinal.page_table.length ≤ 2 :=
  C8_capacity_bounds 4096 1 2 "LRU" false simC4 rfl [0, 4096, 0, 8192]
    sFinal (by decide)

/-- C9: `print_statistics` interpolates `self.replacement_policy`, but
`__init__` stores the policy under the attribute name `rep_policy`; Python
therefore raises AttributeError on every call, for every simulator — the
report is never emitted successfully. -/
theorem C9_attribute_error (s : MemorySimulator) :
    (print_statistics s).2 =
      some "AttributeError: MemorySimulator object has no attribute replacement_policy" :=
  rfl

/-- C10: on any simulator the constructor returns, after any completed access
trace the counters satisfy page_faults ≤ tlb_misses; and across any single
access all three counters are non-decreasing, with the page-fault increment
never exceeding the tlb-miss increment of the same access (every fault is
preceded by a miss in that access). Counters are naturals, hence non-negative. -/
theorem C10_counter_invariants :
    (∀ ps te nf pol dbg sim trace s',
      mkMemorySimulator ps te nf pol dbg = Except.ok sim →
      run sim trace = some s' →
      s'.page_faults ≤ s'.tlb_misses) ∧
    (∀ s va s', access_memory s va = some s' →
      s.tlb_hits ≤ s'.tlb_hits ∧ s.tlb_misses ≤ s'.tlb_misses ∧
      s.page_faults ≤ s'.page_faults ∧
      s'.page_faults + s.tlb_misses ≤ s.page_faults + s'.tlb_misses) := by
  constructor
  · intro ps te nf pol dbg sim trace s' hmk hrun
    have h0 : sim.page_faults ≤ sim.tlb_misses := by
      unfold mkMemorySimulator at hmk
      by_cases hp : pol = "LRU" ∨ pol = "SecondChance"
      · rw [if_pos hp] at hmk
        simp only [Except.ok.injEq] at hmk
        subst hmk
        exact le_refl 0
      · rw [if_neg hp] at hmk
        exact Except.noConfusion hmk
    exact (run_counters trace sim s' hrun h0).1
  · intro s va s' h
    rcases access_counters s va s' h with ⟨h1, h2, h3⟩ | ⟨h1, h2, h3⟩ | ⟨h1, h2, h3⟩ <;>
      exact ⟨by omega, by omega, by omega, by omega⟩

/-- C10 witness: the invariants at the spec scenario and its first access. -/
theorem C10_witness :
    sFinal.page_faults ≤ sFinal.tlb_misses ∧
    (simC4.tlb_hits ≤ sAfter1.tlb_hits ∧ simC4.tlb_misses ≤ sAfter1.tlb_misses ∧
     simC4.page_faults ≤ sAfter1.page_faults ∧
     sAfter1.page_faults + simC4.tlb_misses ≤
       simC4.page_faults + sAfter1.tlb_misses) :=
  ⟨C10_counter_invariants.1 4096 1 2 "LRU" false simC4 [0, 4096, 0, 8192] sFinal
    rfl (by decide),
   C10_counter_invariants.2 simC4 0 sAfter1 (by decide)⟩

end MemSim
